import Mathlib

/-!
# Verification of `mergeifc.py`

A shallow embedding of the IFC merge script `src/mergeifc.py` and proofs of the
specification claims about it.

Modelling conventions:

* An IFC entity is a record carrying its type tag (`is_a()` in the source), its
  per-file numeric identifier (`id()`), its optional `Name` attribute, and its
  RGB components (used only by colour entities).  The external library call
  `merged_model.add(entity)` can raise; whether the add of a given entity
  succeeds is modelled by the Boolean field `addOk` (the source wraps every add
  in `try/except`).
* A model (`ifcopenshell.file`) is the list of its entities in iteration
  order; `by_type` is the filter by type tag.  The output model is the list of
  entities successfully added, in add order (renumbering on add is invisible
  at the granularity of the claims).
* The filesystem and parser are modelled by a map from paths to a
  `FileState`: `absent` (fails `os.path.exists`), `unreadable` (exists but
  `ifcopenshell.open` raises), or `readable m` (opens as model `m`).
* Python truthiness of `entity.Name` is modelled faithfully: both a missing
  name and the empty string count as unnamed.
* `print` output relevant to the claims is modelled as lists of line strings;
  `sys.exit` and file writing are modelled in the result types.
-/

/-- An IFC entity as seen by the script: type tag, per-file numeric id,
optional name, whether `merged_model.add` succeeds on it, and RGB components
(meaningful for `IfcColourRgb` entities). -/
structure Entity where
  typ : String
  eid : Nat
  name : Option String
  addOk : Bool
  red : Rat
  green : Rat
  blue : Rat
deriving DecidableEq

/-- An IFC model: its entities in iteration order. -/
abbrev Model := List Entity

/-- `model.by_type t`: all entities with type tag `t`, in model order. -/
def by_type (m : Model) (t : String) : List Entity :=
  m.filter (fun e => e.typ == t)

/-- State of a path in the filesystem: missing, present but unparsable, or
opening as a model. -/
inductive FileState where
  | absent : FileState
  | unreadable : FileState
  | readable : Model → FileState
deriving DecidableEq

/-- The five mutable "known" sets of the script (lines 90–94 of the source),
modelled as lists used only through membership. -/
structure KnownSets where
  materials : List String
  surfaceStyles : List String
  styledItems : List Nat
  colours : List Nat
  presentationStyles : List Nat
deriving DecidableEq

/-- Python `str.lower()` on the entity names handled here (ASCII case
folding, character by character). -/
def strLower (s : String) : String := ⟨s.data.map Char.toLower⟩

/-- Python truthiness test on the optional `Name` attribute: a name is falsy
when missing or empty. -/
def truthyName (e : Entity) : Option String :=
  match e.name with
  | some n => if n = "" then none else some n
  | none => none

/-- The dedup key of a material or surface style:
`entity.Name.lower() if entity.Name else f"unnamed_{entity.id()}"`
(lines 133 and 143 of the source). -/
def nameKey (e : Entity) : String :=
  match truthyName e with
  | some n => strLower n
  | none => "unnamed_" ++ Nat.repr e.eid

/-- One deduplication pass (the loop shape shared by passes 1–5 of the
source, lines 114–158): for each entity, if its key is not yet known, try to
add it to the output, and record the key only when the add succeeds. -/
def dedupPass {κ : Type} [DecidableEq κ] (key : Entity → κ) :
    List Entity → List κ → Model → List κ × Model
  | [], known, out => (known, out)
  | e :: rest, known, out =>
    if key e ∈ known then dedupPass key rest known out
    else if e.addOk then dedupPass key rest (known ++ [key e]) (out ++ [e])
    else dedupPass key rest known out

/-- An unconditional copy pass (passes 6 and 7 of the source, lines
161–172): every entity is attempted with no key check. -/
def addAll : List Entity → Model → Model
  | [], out => out
  | e :: rest, out => if e.addOk then addAll rest (out ++ [e]) else addAll rest out

/-- The seven type tags handled by the dedicated passes and skipped by the
final sweep (lines 177–179 of the source). -/
def colorTypeNames : List String :=
  ["IfcColourRgb", "IfcPresentationStyleAssignment", "IfcSurfaceStyle",
   "IfcMaterial", "IfcStyledItem", "IfcRelAssociatesMaterial",
   "IfcPresentationLayerAssignment"]

/-- The five type tags whose pass deduplicates by a key. -/
def dedupTypeNames : List String :=
  ["IfcColourRgb", "IfcPresentationStyleAssignment", "IfcSurfaceStyle",
   "IfcMaterial", "IfcStyledItem"]

/-- The final sweep (step 8, lines 175–189): every entity whose type is not
one of the seven already-handled tags is attempted. -/
def finalSweep : List Entity → Model → Model
  | [], out => out
  | e :: rest, out =>
    if e.typ ∈ colorTypeNames then finalSweep rest out
    else if e.addOk then finalSweep rest (out ++ [e]) else finalSweep rest out

/-- Processing of one secondary file (the body of the loop at lines
107–189): the seven passes in their fixed order, then the final sweep. -/
def processFile (current : Model) (ks : KnownSets) (merged : Model) :
    KnownSets × Model :=
  let (known_colours, m1) :=
    dedupPass (fun e => e.eid) (by_type current "IfcColourRgb") ks.colours merged
  let (known_presentation_styles, m2) :=
    dedupPass (fun e => e.eid) (by_type current "IfcPresentationStyleAssignment")
      ks.presentationStyles m1
  let (known_surface_styles, m3) :=
    dedupPass nameKey (by_type current "IfcSurfaceStyle") ks.surfaceStyles m2
  let (known_materials, m4) :=
    dedupPass nameKey (by_type current "IfcMaterial") ks.materials m3
  let (known_styled_items, m5) :=
    dedupPass (fun e => e.eid) (by_type current "IfcStyledItem") ks.styledItems m4
  let m6 := addAll (by_type current "IfcRelAssociatesMaterial") m5
  let m7 := addAll (by_type current "IfcPresentationLayerAssignment") m6
  let m8 := finalSweep current m7
  ({ materials := known_materials
     surfaceStyles := known_surface_styles
     styledItems := known_styled_items
     colours := known_colours
     presentationStyles := known_presentation_styles }, m8)

/-- The loop over the secondary files (lines 102–192): a file that is absent
or fails to open is skipped entirely. -/
def processFiles (fs : String → FileState) :
    List String → KnownSets → Model → KnownSets × Model
  | [], ks, out => (ks, out)
  | p :: rest, ks, out =>
    match fs p with
    | FileState.readable current =>
      let (ks2, out2) := processFile current ks out
      processFiles fs rest ks2 out2
    | _ => processFiles fs rest ks out

/-- Seeding of the five known sets from the base model (lines 90–94). -/
def seedKnownSets (base : Model) : KnownSets where
  materials :=
    (by_type base "IfcMaterial").filterMap (fun m => (truthyName m).map strLower)
  surfaceStyles :=
    (by_type base "IfcSurfaceStyle").filterMap (fun s => (truthyName s).map strLower)
  styledItems := (by_type base "IfcStyledItem").map (fun e => e.eid)
  colours := (by_type base "IfcColourRgb").map (fun e => e.eid)
  presentationStyles :=
    (by_type base "IfcPresentationStyleAssignment").map (fun e => e.eid)

/-- Result of a call to the merge function.  `noInput` is the early return at
lines 64–66 with its printed message; `fatalExit` is the `sys.exit(1)` for a
missing or unopenable base file; `completed` carries whether the final
`merged_model.write` succeeded, the output model and the final known sets. -/
inductive MergeResult where
  | noInput : String → MergeResult
  | fatalExit : Nat → MergeResult
  | completed : Bool → Model → KnownSets → MergeResult
deriving DecidableEq

/-- `merge_ifc_files_with_color_priority(input_files, output_file)` of the
source.  `fs` models the filesystem/parser and `writeOk` whether the final
write succeeds (write failure is caught at lines 203–204 and only logged). -/
def merge_ifc_files_with_color_priority (fs : String → FileState)
    (writeOk : Bool) (input_files : List String) (_output_file : String) :
    MergeResult :=
  match input_files with
  | [] => MergeResult.noInput "Ошибка: Не указаны входные файлы для объединения."
  | base_path :: rest =>
    match fs base_path with
    | FileState.absent => MergeResult.fatalExit 1
    | FileState.unreadable => MergeResult.fatalExit 1
    | FileState.readable base_model =>
      let merged0 := base_model.filter (fun e => e.addOk)
      let (ks, merged) := processFiles fs rest (seedKnownSets base_model) merged0
      MergeResult.completed writeOk merged ks

/-- Whether the merge run produced an output file. -/
def wroteOutput : MergeResult → Bool
  | MergeResult.completed w _ _ => w
  | _ => false

/-- Whether the merge call terminated the whole process (`sys.exit`). -/
def exitsProcess : MergeResult → Bool
  | MergeResult.fatalExit _ => true
  | _ => false

/-- The entities of the output model of a completed merge. -/
def mergedEntities : MergeResult → Model
  | MergeResult.completed _ out _ => out
  | _ => []

/-- The three fractional digits of a fixed-point value `r < 1000`, with
leading zeros. -/
def pad3 (r : Nat) : String :=
  ⟨[Nat.digitChar (r / 100 % 10), Nat.digitChar (r / 10 % 10), Nat.digitChar (r % 10)]⟩

/-- Rendering of a colour component with three digits after the decimal
point, modelling the `:.3f` format of line 230 of the source (the exact
rounding of CPython float formatting is approximated by round-half-up on the
exact rational value; only the three-decimal shape is relied upon). -/
def fmt3 (q : Rat) : String :=
  let sign := if q.num < 0 then "-" else ""
  let n : Nat := q.num.natAbs * 1000
  let m : Nat := (2 * n + q.den) / (2 * q.den)
  sign ++ Nat.repr (m / 1000) ++ "." ++ pad3 (m % 1000)

/-- `mat.Name if mat.Name else 'Unnamed'` (lines 217 and 222). -/
def displayName (e : Entity) : String :=
  match truthyName e with
  | some n => n
  | none => "Unnamed"

/-- `validate_ifc_colors(ifc_file)` of the source (lines 206–236), as the
list of printed lines.  Opening failure is caught at lines 235–236 and
reported as a single error line. -/
def validate_ifc_colors (ifc_file : String) (st : FileState) : List String :=
  ("=== Анализ цветовой информации в " ++ ifc_file ++ " ===") ::
  match st with
  | FileState.readable model =>
    let materials := by_type model "IfcMaterial"
    let surface_styles := by_type model "IfcSurfaceStyle"
    let styled_items := by_type model "IfcStyledItem"
    let colours := by_type model "IfcColourRgb"
    let material_relations := by_type model "IfcRelAssociatesMaterial"
    (("Материалы: " ++ Nat.repr materials.length)
      :: (materials.take 5).map (fun mat => "  - " ++ displayName mat))
    ++ (("Стили поверхности: " ++ Nat.repr surface_styles.length)
      :: (surface_styles.take 5).map (fun style => "  - " ++ displayName style))
    ++ ["Стилизованные элементы: " ++ Nat.repr styled_items.length]
    ++ (("RGB цвета: " ++ Nat.repr colours.length)
      :: (colours.take 3).map (fun colour =>
            "  - RGB(" ++ fmt3 colour.red ++ ", " ++ fmt3 colour.green ++ ", "
              ++ fmt3 colour.blue ++ ")"))
    ++ ["Связи материалов: " ++ Nat.repr material_relations.length]
  | _ => ["Ошибка при анализе файла"]

/-- Observable outcome of one process run: exit status and whether an output
file was written. -/
structure ProcOutcome where
  exitCode : Nat
  wroteFile : Bool
deriving DecidableEq

/-- The `__main__` dispatcher (lines 238–275).  `argv` is the full `sys.argv`
including the program name.  With at least two arguments and the first equal
to `--analyze`, the analyzer runs and the process exits 0; with fewer than
two arguments usage is printed and the process exits 1; otherwise the merge
runs (its `sys.exit` propagating) and the process ends with status 0. -/
def mainRun (argv : List String) (fs : String → FileState) (writeOk : Bool) :
    ProcOutcome :=
  match argv with
  | _prog :: a1 :: a2 :: rest =>
    if a1 = "--analyze" then { exitCode := 0, wroteFile := false }
    else
      match merge_ifc_files_with_color_priority fs writeOk (a2 :: rest) a1 with
      | MergeResult.fatalExit c => { exitCode := c, wroteFile := false }
      | MergeResult.noInput _ => { exitCode := 0, wroteFile := false }
      | MergeResult.completed w _ _ => { exitCode := 0, wroteFile := w }
  | _ => { exitCode := 1, wroteFile := false }

/-! ## Decimal representation helpers

`Nat.repr` has no injectivity lemma in the libraries; it is proved here via a
direct characterisation of `Nat.toDigitsCore` and a digit-valuation round
trip.  This underpins the analysis of the `unnamed_...` placeholder keys. -/

/-- The decimal digit characters of `n`, most significant first. -/
def decChars (n : Nat) : List Char :=
  if n < 10 then [Nat.digitChar n]
  else decChars (n / 10) ++ [Nat.digitChar (n % 10)]
termination_by n
decreasing_by exact Nat.div_lt_self (by omega) (by omega)

/-- Numeric value of a digit character. -/
def chval (c : Char) : Nat := c.toNat - 48

/-- Value of a most-significant-first digit-character list. -/
def listVal : List Char → Nat
  | [] => 0
  | c :: cs => chval c * 10 ^ cs.length + listVal cs

/-! ## Characterisation of the passes -/

/-- The entities a dedup pass copies: those whose key is absent from the
evolving known set and whose add succeeds. -/
def passPick {κ : Type} [DecidableEq κ] (key : Entity → κ) :
    List Entity → List κ → List Entity
  | [], _ => []
  | e :: rest, known =>
    if key e ∈ known then passPick key rest known
    else if e.addOk then e :: passPick key rest (known ++ [key e])
    else passPick key rest known

theorem dedupPass_eq {κ : Type} [DecidableEq κ] (key : Entity → κ)
    (es : List Entity) (known : List κ) (out : Model) :
    dedupPass key es known out =
      (known ++ (passPick key es known).map key, out ++ passPick key es known) := by
  induction es generalizing known out with
  | nil => simp [dedupPass, passPick]
  | cons e rest ih =>
    by_cases h1 : key e ∈ known
    · simp [dedupPass, passPick, h1, ih]
    · by_cases h2 : e.addOk
      · simp [dedupPass, passPick, h1, h2, ih]
      · simp [dedupPass, passPick, h1, h2, ih]

theorem passPick_mem {κ : Type} [DecidableEq κ] (key : Entity → κ) :
    ∀ (es : List Entity) (known : List κ) (e : Entity),
      e ∈ passPick key es known → e ∈ es ∧ e.addOk = true ∧ key e ∉ known := by
  intro es
  induction es with
  | nil => intro known e h; simp [passPick] at h
  | cons e0 rest ih =>
    intro known e h
    by_cases h1 : key e0 ∈ known
    · simp only [passPick, if_pos h1] at h
      rcases ih known e h with ⟨he, hok, hk⟩
      exact ⟨List.mem_cons_of_mem _ he, hok, hk⟩
    · by_cases h2 : e0.addOk
      · simp only [passPick, if_neg h1, if_pos h2, List.mem_cons] at h
        rcases h with rfl | h
        · exact ⟨List.mem_cons_self _ _, h2, h1⟩
        · rcases ih (known ++ [key e0]) e h with ⟨he, hok, hk⟩
          exact ⟨List.mem_cons_of_mem _ he, hok, fun hc => hk (List.mem_append_left _ hc)⟩
      · simp only [passPick, if_neg h1, if_neg h2] at h
        rcases ih known e h with ⟨he, hok, hk⟩
        exact ⟨List.mem_cons_of_mem _ he, hok, hk⟩

theorem passPick_nil_of_known {κ : Type} [DecidableEq κ] (key : Entity → κ) :
    ∀ (es : List Entity) (known : List κ),
      (∀ e ∈ es, key e ∈ known) → passPick key es known = [] := by
  intro es
  induction es with
  | nil => intro known _; rfl
  | cons e0 rest ih =>
    intro known h
    have h0 : key e0 ∈ known := h e0 (List.mem_cons_self _ _)
    simp only [passPick, if_pos h0]
    exact ih known (fun e he => h e (List.mem_cons_of_mem _ he))

theorem passPick_keys_complete {κ : Type} [DecidableEq κ] (key : Entity → κ) :
    ∀ (es : List Entity) (known : List κ), (∀ e ∈ es, e.addOk = true) →
      ∀ e ∈ es, key e ∈ known ++ (passPick key es known).map key := by
  intro es
  induction es with
  | nil => intro known _ e he; simp at he
  | cons e0 rest ih =>
    intro known hok e he
    by_cases h1 : key e0 ∈ known
    · simp only [passPick, if_pos h1]
      rcases List.mem_cons.mp he with rfl | he
      · exact List.mem_append_left _ h1
      · exact ih known (fun x hx => hok x (List.mem_cons_of_mem _ hx)) e he
    · have h2 : e0.addOk = true := hok e0 (List.mem_cons_self _ _)
      simp only [passPick, if_neg h1, if_pos h2, List.map_cons]
      rcases List.mem_cons.mp he with rfl | he
      · exact List.mem_append_right _ (List.mem_cons_self _ _)
      · have := ih (known ++ [key e0])
          (fun x hx => hok x (List.mem_cons_of_mem _ hx)) e he
        simpa [List.append_assoc] using this

theorem addAll_eq : ∀ (es : List Entity) (out : Model),
    addAll es out = out ++ es.filter (fun e => e.addOk) := by
  intro es
  induction es with
  | nil => intro out; simp [addAll]
  | cons e rest ih =>
    intro out
    by_cases h : e.addOk
    · simp [addAll, h, ih, List.filter_cons]
    · simp [addAll, h, ih, List.filter_cons]

/-- The entities the final sweep copies. -/
def sweepPick : List Entity → List Entity
  | [] => []
  | e :: rest =>
    if e.typ ∈ colorTypeNames then sweepPick rest
    else if e.addOk then e :: sweepPick rest
    else sweepPick rest

theorem finalSweep_eq : ∀ (es : List Entity) (out : Model),
    finalSweep es out = out ++ sweepPick es := by
  intro es
  induction es with
  | nil => intro out; simp [finalSweep, sweepPick]
  | cons e rest ih =>
    intro out
    by_cases h1 : e.typ ∈ colorTypeNames
    · simp [finalSweep, sweepPick, h1, ih]
    · by_cases h2 : e.addOk
      · simp [finalSweep, sweepPick, h1, h2, ih]
      · simp [finalSweep, sweepPick, h1, h2, ih]

theorem sweepPick_mem : ∀ (es : List Entity) (e : Entity),
    e ∈ sweepPick es → e ∈ es ∧ e.typ ∉ colorTypeNames ∧ e.addOk = true := by
  intro es
  induction es with
  | nil => intro e h; simp [sweepPick] at h
  | cons e0 rest ih =>
    intro e h
    by_cases h1 : e0.typ ∈ colorTypeNames
    · simp only [sweepPick, if_pos h1] at h
      rcases ih e h with ⟨he, ht, hok⟩
      exact ⟨List.mem_cons_of_mem _ he, ht, hok⟩
    · by_cases h2 : e0.addOk
      · simp only [sweepPick, if_neg h1, if_pos h2, List.mem_cons] at h
        rcases h with rfl | h
        · exact ⟨List.mem_cons_self _ _, h1, h2⟩
        · rcases ih e h with ⟨he, ht, hok⟩
          exact ⟨List.mem_cons_of_mem _ he, ht, hok⟩
      · simp only [sweepPick, if_neg h1, if_neg h2] at h
        rcases ih e h with ⟨he, ht, hok⟩
        exact ⟨List.mem_cons_of_mem _ he, ht, hok⟩

theorem by_type_mem (m : Model) (t : String) (e : Entity) :
    e ∈ by_type m t → e ∈ m ∧ e.typ = t := by
  intro h
  simpa [by_type, List.mem_filter] using h

/-- The known sets after processing one secondary file. -/
def fileKnown (current : Model) (ks : KnownSets) : KnownSets where
  materials := ks.materials ++
    (passPick nameKey (by_type current "IfcMaterial") ks.materials).map nameKey
  surfaceStyles := ks.surfaceStyles ++
    (passPick nameKey (by_type current "IfcSurfaceStyle") ks.surfaceStyles).map nameKey
  styledItems := ks.styledItems ++
    (passPick (fun e => e.eid) (by_type current "IfcStyledItem") ks.styledItems).map
      (fun e => e.eid)
  colours := ks.colours ++
    (passPick (fun e => e.eid) (by_type current "IfcColourRgb") ks.colours).map
      (fun e => e.eid)
  presentationStyles := ks.presentationStyles ++
    (passPick (fun e => e.eid) (by_type current "IfcPresentationStyleAssignment")
      ks.presentationStyles).map (fun e => e.eid)

/-- The entities appended to the output model by processing one secondary
file, in the order of the seven passes and of the final sweep. -/
def fileDelta (current : Model) (ks : KnownSets) : Model :=
  passPick (fun e => e.eid) (by_type current "IfcColourRgb") ks.colours
  ++ passPick (fun e => e.eid) (by_type current "IfcPresentationStyleAssignment")
      ks.presentationStyles
  ++ passPick nameKey (by_type current "IfcSurfaceStyle") ks.surfaceStyles
  ++ passPick nameKey (by_type current "IfcMaterial") ks.materials
  ++ passPick (fun e => e.eid) (by_type current "IfcStyledItem") ks.styledItems
  ++ (by_type current "IfcRelAssociatesMaterial").filter (fun e => e.addOk)
  ++ (by_type current "IfcPresentationLayerAssignment").filter (fun e => e.addOk)
  ++ sweepPick current

theorem processFile_eq (current : Model) (ks : KnownSets) (merged : Model) :
    processFile current ks merged = (fileKnown current ks, merged ++ fileDelta current ks) := by
  simp [processFile, dedupPass_eq, addAll_eq, finalSweep_eq, fileKnown, fileDelta,
    List.append_assoc]

/-- The known sets after the whole secondary-file loop. -/
def ksAfter (fs : String → FileState) : List String → KnownSets → KnownSets
  | [], ks => ks
  | p :: rest, ks =>
    match fs p with
    | FileState.readable current => ksAfter fs rest (fileKnown current ks)
    | _ => ksAfter fs rest ks

/-- The entities appended to the output model by the whole secondary-file
loop. -/
def mergeDelta (fs : String → FileState) : List String → KnownSets → Model
  | [], _ => []
  | p :: rest, ks =>
    match fs p with
    | FileState.readable current =>
      fileDelta current ks ++ mergeDelta fs rest (fileKnown current ks)
    | _ => mergeDelta fs rest ks

theorem processFiles_eq (fs : String → FileState) :
    ∀ (paths : List String) (ks : KnownSets) (out : Model),
      processFiles fs paths ks out = (ksAfter fs paths ks, out ++ mergeDelta fs paths ks) := by
  intro paths
  induction paths with
  | nil => intro ks out; simp [processFiles, ksAfter, mergeDelta]
  | cons p rest ih =>
    intro ks out
    cases hfs : fs p with
    | absent => simp [processFiles, ksAfter, mergeDelta, hfs, ih]
    | unreadable => simp [processFiles, ksAfter, mergeDelta, hfs, ih]
    | readable current =>
      simp [processFiles, ksAfter, mergeDelta, hfs, processFile_eq, ih,
        List.append_assoc]

theorem toDigitsCore_eq_decChars :
    ∀ (fuel n : Nat) (ds : List Char), n < fuel →
      Nat.toDigitsCore 10 fuel n ds = decChars n ++ ds := by
  intro fuel
  induction fuel with
  | zero => intro n ds h; omega
  | succ f ih =>
    intro n ds h
    by_cases h10 : n < 10
    · have hdiv : n / 10 = 0 := Nat.div_eq_of_lt h10
      rw [decChars]
      simp [Nat.toDigitsCore, hdiv, h10, Nat.mod_eq_of_lt h10]
    · have hdiv : n / 10 ≠ 0 := by omega
      have hlt : n / 10 < f := by omega
      rw [decChars]
      simp only [Nat.toDigitsCore, hdiv, if_neg h10, ite_false]
      rw [ih (n / 10) (Nat.digitChar (n % 10) :: ds) hlt]
      simp

theorem repr_eq_decChars (n : Nat) : Nat.repr n = (decChars n).asString := by
  have h := toDigitsCore_eq_decChars (n + 1) n [] (Nat.lt_succ_self n)
  simp only [Nat.repr, Nat.toDigits, h, List.append_nil]

theorem chval_digitChar (d : Nat) (h : d < 10) : chval (Nat.digitChar d) = d := by
  interval_cases d <;> decide

theorem listVal_snoc (xs : List Char) (c : Char) :
    listVal (xs ++ [c]) = 10 * listVal xs + chval c := by
  induction xs with
  | nil => simp [listVal]
  | cons x xs ih =>
    simp only [List.cons_append, listVal, List.append_eq, ih, List.length_append,
      List.length_cons, List.length_nil]
    ring

theorem listVal_decChars : ∀ n : Nat, listVal (decChars n) = n := by
  intro n
  induction n using Nat.strong_induction_on with
  | _ n ih =>
    by_cases h : n < 10
    · rw [decChars]
      simp [h, listVal, chval_digitChar n h]
    · rw [decChars]
      simp only [h, ite_false]
      rw [listVal_snoc, ih (n / 10) (by omega), chval_digitChar _ (by omega)]
      omega

theorem decChars_injective (m n : Nat) (h : decChars m = decChars n) : m = n := by
  have hm := listVal_decChars m
  rw [h, listVal_decChars] at hm
  omega

theorem nat_repr_injective (m n : Nat) (h : Nat.repr m = Nat.repr n) : m = n := by
  rw [repr_eq_decChars, repr_eq_decChars] at h
  exact decChars_injective m n (by simpa [List.asString] using congrArg String.data h)

/-- The placeholder keys of two unnamed entities agree exactly when their
per-file identifiers agree. -/
theorem unnamed_key_inj (i j : Nat)
    (h : ("unnamed_" ++ Nat.repr i) = ("unnamed_" ++ Nat.repr j)) : i = j := by
  have hd : ("unnamed_" ++ Nat.repr i).data = ("unnamed_" ++ Nat.repr j).data :=
    congrArg String.data h
  simp only [String.data_append] at hd
  have : (Nat.repr i).data = (Nat.repr j).data := List.append_cancel_left hd
  exact nat_repr_injective i j (String.ext this)

/-! ## Claims -/

/-- **C1**: for every secondary input file, the merge executes seven
deduplication passes in the fixed order colours, presentation-style
assignments, surface styles, materials, styled items, material-association
relations, presentation-layer assignments; in each of the first five passes
an entity is copied into the output model only if its dedup key (raw
identifier for colours, presentation-style assignments, styled items;
lower-cased name or unnamed placeholder for surface styles and materials) is
absent from the corresponding known set, and the key is added to the set
only when the copy succeeds (the keys added are exactly the keys of the
successfully copied entities). -/
theorem seven_pass_dedup_order (current : Model) (ks : KnownSets) (merged : Model) :
    ∃ dc dp ds dm di dr dl dx : List Entity,
      (processFile current ks merged).2 =
        merged ++ dc ++ dp ++ ds ++ dm ++ di ++ dr ++ dl ++ dx
      ∧ (∀ e ∈ dc,
          e ∈ by_type current "IfcColourRgb" ∧ e.addOk = true ∧ e.eid ∉ ks.colours)
      ∧ (processFile current ks merged).1.colours =
          ks.colours ++ dc.map (fun e => e.eid)
      ∧ (∀ e ∈ dp,
          e ∈ by_type current "IfcPresentationStyleAssignment" ∧ e.addOk = true
            ∧ e.eid ∉ ks.presentationStyles)
      ∧ (processFile current ks merged).1.presentationStyles =
          ks.presentationStyles ++ dp.map (fun e => e.eid)
      ∧ (∀ e ∈ ds,
          e ∈ by_type current "IfcSurfaceStyle" ∧ e.addOk = true
            ∧ nameKey e ∉ ks.surfaceStyles)
      ∧ (processFile current ks merged).1.surfaceStyles =
          ks.surfaceStyles ++ ds.map nameKey
      ∧ (∀ e ∈ dm,
          e ∈ by_type current "IfcMaterial" ∧ e.addOk = true
            ∧ nameKey e ∉ ks.materials)
      ∧ (processFile current ks merged).1.materials = ks.materials ++ dm.map nameKey
      ∧ (∀ e ∈ di,
          e ∈ by_type current "IfcStyledItem" ∧ e.addOk = true
            ∧ e.eid ∉ ks.styledItems)
      ∧ (processFile current ks merged).1.styledItems =
          ks.styledItems ++ di.map (fun e => e.eid)
      ∧ dr = (by_type current "IfcRelAssociatesMaterial").filter (fun e => e.addOk)
      ∧ dl = (by_type current "IfcPresentationLayerAssignment").filter (fun e => e.addOk)
      ∧ (∀ e ∈ dx, e ∈ current ∧ e.typ ∉ colorTypeNames) := by
  simp only [processFile_eq]
  refine ⟨passPick (fun e => e.eid) (by_type current "IfcColourRgb") ks.colours,
    passPick (fun e => e.eid) (by_type current "IfcPresentationStyleAssignment")
      ks.presentationStyles,
    passPick nameKey (by_type current "IfcSurfaceStyle") ks.surfaceStyles,
    passPick nameKey (by_type current "IfcMaterial") ks.materials,
    passPick (fun e => e.eid) (by_type current "IfcStyledItem") ks.styledItems,
    (by_type current "IfcRelAssociatesMaterial").filter (fun e => e.addOk),
    (by_type current "IfcPresentationLayerAssignment").filter (fun e => e.addOk),
    sweepPick current,
    ?_, ?_, rfl, ?_, rfl, ?_, rfl, ?_, rfl, ?_, rfl, rfl, rfl, ?_⟩
  · simp [fileDelta, List.append_assoc]
  · intro e he; exact passPick_mem _ _ _ e he
  · intro e he; exact passPick_mem _ _ _ e he
  · intro e he; exact passPick_mem _ _ _ e he
  · intro e he; exact passPick_mem _ _ _ e he
  · intro e he; exact passPick_mem _ _ _ e he
  · intro e he; exact ⟨(sweepPick_mem _ e he).1, (sweepPick_mem _ e he).2.1⟩

/-- Pointwise inclusion of known sets. -/
def ksLe (a b : KnownSets) : Prop :=
  a.materials ⊆ b.materials ∧ a.surfaceStyles ⊆ b.surfaceStyles
    ∧ a.styledItems ⊆ b.styledItems ∧ a.colours ⊆ b.colours
    ∧ a.presentationStyles ⊆ b.presentationStyles

theorem ksLe_fileKnown (current : Model) (ks : KnownSets) :
    ksLe ks (fileKnown current ks) := by
  refine ⟨?_, ?_, ?_, ?_, ?_⟩ <;>
    simp [fileKnown, List.subset_append_left]

theorem ksLe_ksAfter (fs : String → FileState) :
    ∀ (paths : List String) (ks : KnownSets), ksLe ks (ksAfter fs paths ks) := by
  intro paths
  induction paths with
  | nil =>
    intro ks
    exact ⟨List.Subset.refl _, List.Subset.refl _, List.Subset.refl _,
      List.Subset.refl _, List.Subset.refl _⟩
  | cons p rest ih =>
    intro ks
    cases hfs : fs p with
    | absent => simpa [ksAfter, hfs] using ih ks
    | unreadable => simpa [ksAfter, hfs] using ih ks
    | readable current =>
      have h1 := ksLe_fileKnown current ks
      have h2 := ih (fileKnown current ks)
      simp only [ksAfter, hfs]
      exact ⟨h1.1.trans h2.1, h1.2.1.trans h2.2.1, h1.2.2.1.trans h2.2.2.1,
        h1.2.2.2.1.trans h2.2.2.2.1, h1.2.2.2.2.trans h2.2.2.2.2⟩

/-- No entity appended while processing one file carries a key already
recorded in the known sets the file was processed with. -/
theorem fileDelta_blocks (current : Model) (ks : KnownSets) :
    ∀ e ∈ fileDelta current ks,
      (e.typ = "IfcMaterial" → nameKey e ∉ ks.materials)
      ∧ (e.typ = "IfcSurfaceStyle" → nameKey e ∉ ks.surfaceStyles)
      ∧ (e.typ = "IfcStyledItem" → e.eid ∉ ks.styledItems)
      ∧ (e.typ = "IfcColourRgb" → e.eid ∉ ks.colours)
      ∧ (e.typ = "IfcPresentationStyleAssignment" → e.eid ∉ ks.presentationStyles) := by
  intro e he
  simp only [fileDelta, List.mem_append] at he
  rcases he with ((((((hc | hp) | hs) | hm) | hi) | hr) | hl) | hx
  · rcases passPick_mem _ _ _ e hc with ⟨hin, _, hkey⟩
    have ht := (by_type_mem _ _ _ hin).2
    refine ⟨?_, ?_, ?_, ?_, ?_⟩ <;> intro hty <;> first
      | (exfalso; rw [ht] at hty; exact absurd hty (by decide))
      | exact hkey
  · rcases passPick_mem _ _ _ e hp with ⟨hin, _, hkey⟩
    have ht := (by_type_mem _ _ _ hin).2
    refine ⟨?_, ?_, ?_, ?_, ?_⟩ <;> intro hty <;> first
      | (exfalso; rw [ht] at hty; exact absurd hty (by decide))
      | exact hkey
  · rcases passPick_mem _ _ _ e hs with ⟨hin, _, hkey⟩
    have ht := (by_type_mem _ _ _ hin).2
    refine ⟨?_, ?_, ?_, ?_, ?_⟩ <;> intro hty <;> first
      | (exfalso; rw [ht] at hty; exact absurd hty (by decide))
      | exact hkey
  · rcases passPick_mem _ _ _ e hm with ⟨hin, _, hkey⟩
    have ht := (by_type_mem _ _ _ hin).2
    refine ⟨?_, ?_, ?_, ?_, ?_⟩ <;> intro hty <;> first
      | (exfalso; rw [ht] at hty; exact absurd hty (by decide))
      | exact hkey
  · rcases passPick_mem _ _ _ e hi with ⟨hin, _, hkey⟩
    have ht := (by_type_mem _ _ _ hin).2
    refine ⟨?_, ?_, ?_, ?_, ?_⟩ <;> intro hty <;> first
      | (exfalso; rw [ht] at hty; exact absurd hty (by decide))
      | exact hkey
  · have ht := (by_type_mem _ _ _ (List.mem_of_mem_filter hr)).2
    refine ⟨?_, ?_, ?_, ?_, ?_⟩ <;> intro hty <;>
      (exfalso; rw [ht] at hty; exact absurd hty (by decide))
  · have ht := (by_type_mem _ _ _ (List.mem_of_mem_filter hl)).2
    refine ⟨?_, ?_, ?_, ?_, ?_⟩ <;> intro hty <;>
      (exfalso; rw [ht] at hty; exact absurd hty (by decide))
  · have ht := (sweepPick_mem _ e hx).2.1
    refine ⟨?_, ?_, ?_, ?_, ?_⟩ <;> intro hty <;>
      (exfalso; rw [hty] at ht; exact ht (by decide))

theorem mergeDelta_blocks (fs : String → FileState) :
    ∀ (paths : List String) (ks : KnownSets) (nm ns : String) (ki kc kp : Nat),
      nm ∈ ks.materials → ns ∈ ks.surfaceStyles → ki ∈ ks.styledItems →
      kc ∈ ks.colours → kp ∈ ks.presentationStyles →
      ∀ e ∈ mergeDelta fs paths ks,
        (e.typ = "IfcMaterial" → nameKey e ≠ nm)
        ∧ (e.typ = "IfcSurfaceStyle" → nameKey e ≠ ns)
        ∧ (e.typ = "IfcStyledItem" → e.eid ≠ ki)
        ∧ (e.typ = "IfcColourRgb" → e.eid ≠ kc)
        ∧ (e.typ = "IfcPresentationStyleAssignment" → e.eid ≠ kp) := by
  intro paths
  induction paths with
  | nil => intro ks nm ns ki kc kp _ _ _ _ _ e he; simp [mergeDelta] at he
  | cons p rest ih =>
    intro ks nm ns ki kc kp hm hs hi hc hp e he
    cases hfs : fs p with
    | absent => exact ih ks nm ns ki kc kp hm hs hi hc hp e (by simpa [mergeDelta, hfs] using he)
    | unreadable => exact ih ks nm ns ki kc kp hm hs hi hc hp e (by simpa [mergeDelta, hfs] using he)
    | readable current =>
      rw [mergeDelta, hfs] at he
      rcases List.mem_append.mp he with hdelta | hrest
      · have hb := fileDelta_blocks current ks e hdelta
        refine ⟨?_, ?_, ?_, ?_, ?_⟩
        · intro hty heq; exact hb.1 hty (heq ▸ hm)
        · intro hty heq; exact hb.2.1 hty (heq ▸ hs)
        · intro hty heq; exact hb.2.2.1 hty (heq ▸ hi)
        · intro hty heq; exact hb.2.2.2.1 hty (heq ▸ hc)
        · intro hty heq; exact hb.2.2.2.2 hty (heq ▸ hp)
      · have hle := ksLe_fileKnown current ks
        exact ih (fileKnown current ks) nm ns ki kc kp (hle.1 hm) (hle.2.1 hs)
          (hle.2.2.1 hi) (hle.2.2.2.1 hc) (hle.2.2.2.2 hp) e hrest

/-- **C2**: once a key is recorded in a known set, no later entity of the
matching appearance category with the same key, from any subsequent input
file, is copied into the output model, regardless of its attribute values
(the conclusion constrains only the type tag and the key, not the other
attributes); the key also stays recorded. -/
theorem known_key_blocks_later_copies (fs : String → FileState)
    (paths : List String) (ks : KnownSets) (out : Model)
    (nm ns : String) (ki kc kp : Nat)
    (hm : nm ∈ ks.materials) (hs : ns ∈ ks.surfaceStyles)
    (hi : ki ∈ ks.styledItems) (hc : kc ∈ ks.colours)
    (hp : kp ∈ ks.presentationStyles) :
    (nm ∈ (processFiles fs paths ks out).1.materials
      ∧ ns ∈ (processFiles fs paths ks out).1.surfaceStyles
      ∧ ki ∈ (processFiles fs paths ks out).1.styledItems
      ∧ kc ∈ (processFiles fs paths ks out).1.colours
      ∧ kp ∈ (processFiles fs paths ks out).1.presentationStyles)
    ∧ ∃ Δ, (processFiles fs paths ks out).2 = out ++ Δ
      ∧ ∀ e ∈ Δ,
        (e.typ = "IfcMaterial" → nameKey e ≠ nm)
        ∧ (e.typ = "IfcSurfaceStyle" → nameKey e ≠ ns)
        ∧ (e.typ = "IfcStyledItem" → e.eid ≠ ki)
        ∧ (e.typ = "IfcColourRgb" → e.eid ≠ kc)
        ∧ (e.typ = "IfcPresentationStyleAssignment" → e.eid ≠ kp) := by
  have hle := ksLe_ksAfter fs paths ks
  rw [processFiles_eq]
  exact ⟨⟨hle.1 hm, hle.2.1 hs, hle.2.2.1 hi, hle.2.2.2.1 hc, hle.2.2.2.2 hp⟩,
    mergeDelta fs paths ks, rfl,
    mergeDelta_blocks fs paths ks nm ns ki kc kp hm hs hi hc hp⟩

/-- Concrete known sets used in the witness of C2. -/
def ksW2 : KnownSets where
  materials := ["concrete"]
  surfaceStyles := ["glass"]
  styledItems := [3]
  colours := [4]
  presentationStyles := [5]

/-- Concrete filesystem used in the witness of C2: one secondary file whose
colour reuses the known identifier 4 and whose material reuses the known
name key, with differing attributes. -/
def fsW2 : String → FileState := fun _ =>
  FileState.readable
    [{ typ := "IfcColourRgb", eid := 4, name := none, addOk := true,
       red := 1, green := 1, blue := 1 },
     { typ := "IfcMaterial", eid := 9, name := some "CONCRETE", addOk := true,
       red := 0, green := 0, blue := 0 }]

theorem known_key_blocks_later_copies_witness :
    (("concrete" ∈ (processFiles fsW2 ["s"] ksW2 []).1.materials
      ∧ "glass" ∈ (processFiles fsW2 ["s"] ksW2 []).1.surfaceStyles
      ∧ 3 ∈ (processFiles fsW2 ["s"] ksW2 []).1.styledItems
      ∧ 4 ∈ (processFiles fsW2 ["s"] ksW2 []).1.colours
      ∧ 5 ∈ (processFiles fsW2 ["s"] ksW2 []).1.presentationStyles)
    ∧ ∃ Δ, (processFiles fsW2 ["s"] ksW2 []).2 = [] ++ Δ
      ∧ ∀ e ∈ Δ,
        (e.typ = "IfcMaterial" → nameKey e ≠ "concrete")
        ∧ (e.typ = "IfcSurfaceStyle" → nameKey e ≠ "glass")
        ∧ (e.typ = "IfcStyledItem" → e.eid ≠ 3)
        ∧ (e.typ = "IfcColourRgb" → e.eid ≠ 4)
        ∧ (e.typ = "IfcPresentationStyleAssignment" → e.eid ≠ 5)) :=
  known_key_blocks_later_copies fsW2 ["s"] ksW2 [] "concrete" "glass" 3 4 5
    (by decide) (by decide) (by decide) (by decide) (by decide)

/-- The base-file material named "Concrete" of the C3 scenario. -/
def matConcrete : Entity :=
  { typ := "IfcMaterial", eid := 1, name := some "Concrete", addOk := true,
    red := 0, green := 0, blue := 0 }

/-- The secondary-file material of the C3 scenario, named by an arbitrary
case variant. -/
def matVariant (v : String) (i : Nat) : Entity :=
  { typ := "IfcMaterial", eid := i, name := some v, addOk := true,
    red := 0, green := 0, blue := 0 }

/-- The filesystem of the C3 scenario. -/
def fsC3 (v : String) (i : Nat) : String → FileState := fun p =>
  if p = "base.ifc" then FileState.readable [matConcrete]
  else if p = "second.ifc" then FileState.readable [matVariant v i]
  else FileState.absent

/-- **C3**: if the base file defines a material named "Concrete" and a
secondary file defines a material named by any case variant of it (any `v`
whose lower-casing is "concrete"), the output model contains exactly one
material under that case-insensitive name key, and it is the one taken from
the base file. -/
theorem material_case_insensitive_base_priority (v : String) (i : Nat)
    (hv : strLower v = "concrete") :
    (mergedEntities (merge_ifc_files_with_color_priority (fsC3 v i) true
        ["base.ifc", "second.ifc"] "out.ifc")).filter
      (fun e => e.typ == "IfcMaterial" && nameKey e == "concrete")
      = [matConcrete] := by
  have hvne : v ≠ "" := by
    intro h
    rw [h] at hv
    exact absurd hv (by decide)
  have hkey : nameKey (matVariant v i) = "concrete" := by
    simp [nameKey, truthyName, matVariant, hvne, hv]
  have hbase : strLower "Concrete" = "concrete" := by decide
  simp [merge_ifc_files_with_color_priority, fsC3, mergedEntities, processFiles,
    processFile, dedupPass, addAll, finalSweep, by_type, matConcrete, matVariant,
    seedKnownSets, truthyName, hvne, hkey, hbase, hv, colorTypeNames, nameKey]

theorem material_case_insensitive_base_priority_witness :
    strLower "CONCRETE" = "concrete"
    ∧ (mergedEntities (merge_ifc_files_with_color_priority (fsC3 "CONCRETE" 7) true
        ["base.ifc", "second.ifc"] "out.ifc")).filter
      (fun e => e.typ == "IfcMaterial" && nameKey e == "concrete")
      = [matConcrete] :=
  ⟨by decide, material_case_insensitive_base_priority "CONCRETE" 7 (by decide)⟩

/-- First unnamed material (per-file id 7) of the C4 scenario. -/
def umA : Entity :=
  { typ := "IfcMaterial", eid := 7, name := none, addOk := true,
    red := 1, green := 0, blue := 0 }

/-- Second unnamed material, from a different file but with the same
per-file id 7 and different attributes. -/
def umB : Entity :=
  { typ := "IfcMaterial", eid := 7, name := none, addOk := true,
    red := 0, green := 1, blue := 0 }

/-- Filesystem of the C4 counterexample: empty base, then two files each
holding one unnamed material with per-file id 7. -/
def fsC4 : String → FileState := fun p =>
  if p = "b" then FileState.readable []
  else if p = "f1" then FileState.readable [umA]
  else if p = "f2" then FileState.readable [umB]
  else FileState.absent

/-- **C4, counterexample**: the placeholder keys of two unnamed materials
from two different input files DO collide when the per-file identifiers
coincide, and the second entity IS skipped as a duplicate of the first: with
an empty base and two secondary files each holding a distinct unnamed
material with per-file id 7, both keys are "unnamed_7" and only the first
material reaches the output model. -/
theorem unnamed_placeholder_collision_cex :
    umA ≠ umB
    ∧ nameKey umA = nameKey umB
    ∧ mergedEntities
        (merge_ifc_files_with_color_priority fsC4 true ["b", "f1", "f2"] "o")
        = [umA] := by decide

/-- Unnamed material with a parametric per-file id, used for the amended C4
claim (the red component marks which file it came from). -/
def umGen (i : Nat) (r : Rat) : Entity :=
  { typ := "IfcMaterial", eid := i, name := none, addOk := true,
    red := r, green := 0, blue := 0 }

/-- Filesystem of the amended C4 claim: empty base, then two files holding
unnamed materials with per-file ids `i` and `j`. -/
def fsC4am (i j : Nat) : String → FileState := fun p =>
  if p = "b" then FileState.readable []
  else if p = "f1" then FileState.readable [umGen i 1]
  else if p = "f2" then FileState.readable [umGen j 2]
  else FileState.absent

/-- **C4, amended**: the synthesized placeholder keys of unnamed materials
from two different input files never collide PROVIDED their per-file
identifiers differ, and then neither entity is skipped as a duplicate of the
other: both are copied into the output model.  (With equal per-file
identifiers the keys collide and the later entity is dropped — see the
counterexample.) -/
theorem unnamed_distinct_ids_no_dedup (i j : Nat) (h : i ≠ j) :
    nameKey (umGen i 1) ≠ nameKey (umGen j 2)
    ∧ mergedEntities
        (merge_ifc_files_with_color_priority (fsC4am i j) true ["b", "f1", "f2"] "o")
        = [umGen i 1, umGen j 2] := by
  have hk : ("unnamed_" ++ Nat.repr j) ≠ ("unnamed_" ++ Nat.repr i) := by
    intro heq
    exact h (unnamed_key_inj j i heq).symm
  constructor
  · intro heq
    exact h (unnamed_key_inj i j (by simpa [nameKey, truthyName, umGen] using heq))
  · simp [merge_ifc_files_with_color_priority, fsC4am, mergedEntities, processFiles,
      processFile, dedupPass, addAll, finalSweep, by_type, umGen, seedKnownSets,
      truthyName, nameKey, colorTypeNames, hk]

theorem unnamed_distinct_ids_no_dedup_witness :
    (7 : Nat) ≠ 8
    ∧ (nameKey (umGen 7 1) ≠ nameKey (umGen 8 2)
      ∧ mergedEntities
          (merge_ifc_files_with_color_priority (fsC4am 7 8) true ["b", "f1", "f2"] "o")
          = [umGen 7 1, umGen 8 2]) :=
  ⟨by decide, unnamed_distinct_ids_no_dedup 7 8 (by decide)⟩

theorem passPick_idem {κ : Type} [DecidableEq κ] (key : Entity → κ)
    (es : List Entity) (known : List κ) (hok : ∀ e ∈ es, e.addOk = true) :
    passPick key es (known ++ (passPick key es known).map key) = [] :=
  passPick_nil_of_known key es _ (passPick_keys_complete key es known hok)

theorem fileKnown_idem (m : Model) (ks : KnownSets)
    (hok : ∀ e ∈ m, e.addOk = true) :
    fileKnown m (fileKnown m ks) = fileKnown m ks := by
  have hty : ∀ t : String, ∀ e ∈ by_type m t, e.addOk = true :=
    fun t e he => hok e (by_type_mem m t e he).1
  have h1 := passPick_idem nameKey (by_type m "IfcMaterial") ks.materials (hty _)
  have h2 := passPick_idem nameKey (by_type m "IfcSurfaceStyle") ks.surfaceStyles (hty _)
  have h3 := passPick_idem (fun e => e.eid) (by_type m "IfcStyledItem") ks.styledItems (hty _)
  have h4 := passPick_idem (fun e => e.eid) (by_type m "IfcColourRgb") ks.colours (hty _)
  have h5 := passPick_idem (fun e => e.eid) (by_type m "IfcPresentationStyleAssignment")
    ks.presentationStyles (hty _)
  simp [fileKnown, h1, h2, h3, h4, h5]

theorem dedup_types_subset_color_types :
    ∀ s ∈ dedupTypeNames, s ∈ colorTypeNames := by
  intro s hs
  simp only [dedupTypeNames, List.mem_cons, List.not_mem_nil, or_false] at hs
  rcases hs with rfl | rfl | rfl | rfl | rfl <;> decide

/-- **C5**: merging the same secondary file twice (the same path appearing
twice in the input list, all copies succeeding) yields exactly the same five
known-key sets as merging it once, and the second processing of the file
copies no entity of the five deduplicated appearance categories. -/
theorem merge_same_file_twice_idempotent (fs : String → FileState) (p : String)
    (m : Model) (ks : KnownSets) (out : Model)
    (hp : fs p = FileState.readable m) (hok : ∀ e ∈ m, e.addOk = true) :
    (processFiles fs [p, p] ks out).1 = (processFiles fs [p] ks out).1
    ∧ ∃ Δ, (processFiles fs [p, p] ks out).2 = (processFiles fs [p] ks out).2 ++ Δ
      ∧ ∀ e ∈ Δ, e.typ ∉ dedupTypeNames := by
  have hty : ∀ t : String, ∀ e ∈ by_type m t, e.addOk = true :=
    fun t e he => hok e (by_type_mem m t e he).1
  have e1 : processFiles fs [p] ks out = (fileKnown m ks, out ++ fileDelta m ks) := by
    simp [processFiles, hp, processFile_eq]
  have e2 : processFiles fs [p, p] ks out
      = (fileKnown m (fileKnown m ks),
         (out ++ fileDelta m ks) ++ fileDelta m (fileKnown m ks)) := by
    simp [processFiles, hp, processFile_eq, List.append_assoc]
  rw [e1, e2, fileKnown_idem m ks hok]
  refine ⟨rfl, fileDelta m (fileKnown m ks), rfl, ?_⟩
  intro e he
  have h1 := passPick_idem nameKey (by_type m "IfcMaterial") ks.materials (hty _)
  have h2 := passPick_idem nameKey (by_type m "IfcSurfaceStyle") ks.surfaceStyles (hty _)
  have h3 := passPick_idem (fun e => e.eid) (by_type m "IfcStyledItem") ks.styledItems (hty _)
  have h4 := passPick_idem (fun e => e.eid) (by_type m "IfcColourRgb") ks.colours (hty _)
  have h5 := passPick_idem (fun e => e.eid) (by_type m "IfcPresentationStyleAssignment")
    ks.presentationStyles (hty _)
  simp only [fileDelta, fileKnown, h1, h2, h3, h4, h5, List.nil_append,
    List.mem_append] at he
  rcases he with (hr | hl) | hx
  · have ht := (by_type_mem _ _ _ (List.mem_of_mem_filter hr)).2
    rw [ht]
    decide
  · have ht := (by_type_mem _ _ _ (List.mem_of_mem_filter hl)).2
    rw [ht]
    decide
  · intro hd
    exact (sweepPick_mem _ e hx).2.1 (dedup_types_subset_color_types _ hd)

/-- Concrete model for the C5 witness: one colour, one material and one
wall, all adding successfully. -/
def mW5 : Model :=
  [{ typ := "IfcColourRgb", eid := 1, name := none, addOk := true,
     red := 1, green := 0, blue := 0 },
   { typ := "IfcMaterial", eid := 2, name := some "Steel", addOk := true,
     red := 0, green := 0, blue := 0 },
   { typ := "IfcWall", eid := 3, name := some "w", addOk := true,
     red := 0, green := 0, blue := 0 }]

/-- Concrete filesystem for the C5 witness. -/
def fsW5 : String → FileState := fun _ => FileState.readable mW5

theorem merge_same_file_twice_idempotent_witness :
    (processFiles fsW5 ["p", "p"]
        { materials := [], surfaceStyles := [], styledItems := [],
          colours := [], presentationStyles := [] } []).1
      = (processFiles fsW5 ["p"]
          { materials := [], surfaceStyles := [], styledItems := [],
            colours := [], presentationStyles := [] } []).1
    ∧ ∃ Δ, (processFiles fsW5 ["p", "p"]
        { materials := [], surfaceStyles := [], styledItems := [],
          colours := [], presentationStyles := [] } []).2
      = (processFiles fsW5 ["p"]
          { materials := [], surfaceStyles := [], styledItems := [],
            colours := [], presentationStyles := [] } []).2 ++ Δ
      ∧ ∀ e ∈ Δ, e.typ ∉ dedupTypeNames :=
  merge_same_file_twice_idempotent fsW5 "p" mW5
    { materials := [], surfaceStyles := [], styledItems := [],
      colours := [], presentationStyles := [] } []
    (by decide) (by decide)

theorem by_type_append (a b : Model) (t : String) :
    by_type (a ++ b) t = by_type a t ++ by_type b t := by
  simp [by_type, List.filter_append]

theorem by_type_eq_nil_of (l : List Entity) (t : String)
    (h : ∀ e ∈ l, e.typ ≠ t) : by_type l t = [] := by
  simp only [by_type, List.filter_eq_nil_iff]
  intro e he
  simp [h e he]

theorem by_type_eq_self_of (l : List Entity) (t : String)
    (h : ∀ e ∈ l, e.typ = t) : by_type l t = l := by
  simp only [by_type, List.filter_eq_self]
  intro e he
  simp [h e he]

theorem passPick_byType_typ {κ : Type} [DecidableEq κ] (key : Entity → κ)
    (m : Model) (t : String) (known : List κ) (e : Entity)
    (he : e ∈ passPick key (by_type m t) known) : e.typ = t :=
  (by_type_mem _ _ _ (passPick_mem _ _ _ e he).1).2

theorem by_type_passPick_ne {κ : Type} [DecidableEq κ] (key : Entity → κ)
    (m : Model) (t t2 : String) (known : List κ) (hne : t ≠ t2) :
    by_type (passPick key (by_type m t) known) t2 = [] :=
  by_type_eq_nil_of _ _
    (fun e he => by rw [passPick_byType_typ _ _ _ _ _ he]; exact hne)

theorem by_type_filterOk_ne (m : Model) (t t2 : String) (hne : t ≠ t2) :
    by_type ((by_type m t).filter (fun e => e.addOk)) t2 = [] :=
  by_type_eq_nil_of _ _
    (fun e he => by rw [(by_type_mem _ _ _ (List.mem_of_mem_filter he)).2]; exact hne)

theorem by_type_filterOk_self (m : Model) (t : String) :
    by_type ((by_type m t).filter (fun e => e.addOk)) t
      = (by_type m t).filter (fun e => e.addOk) :=
  by_type_eq_self_of _ _
    (fun e he => (by_type_mem _ _ _ (List.mem_of_mem_filter he)).2)

theorem by_type_sweepPick_colorType (m : Model) (t : String)
    (ht : t ∈ colorTypeNames) : by_type (sweepPick m) t = [] :=
  by_type_eq_nil_of _ _
    (fun e he hc => (sweepPick_mem _ e he).2.1 (hc ▸ ht))

theorem by_type_fileDelta_rel (m : Model) (ks : KnownSets) :
    by_type (fileDelta m ks) "IfcRelAssociatesMaterial"
      = (by_type m "IfcRelAssociatesMaterial").filter (fun e => e.addOk) := by
  simp only [fileDelta, by_type_append]
  rw [by_type_passPick_ne (fun e => e.eid) m "IfcColourRgb"
      "IfcRelAssociatesMaterial" ks.colours (by decide),
    by_type_passPick_ne (fun e => e.eid) m "IfcPresentationStyleAssignment"
      "IfcRelAssociatesMaterial" ks.presentationStyles (by decide),
    by_type_passPick_ne nameKey m "IfcSurfaceStyle"
      "IfcRelAssociatesMaterial" ks.surfaceStyles (by decide),
    by_type_passPick_ne nameKey m "IfcMaterial"
      "IfcRelAssociatesMaterial" ks.materials (by decide),
    by_type_passPick_ne (fun e => e.eid) m "IfcStyledItem"
      "IfcRelAssociatesMaterial" ks.styledItems (by decide),
    by_type_filterOk_self m "IfcRelAssociatesMaterial",
    by_type_filterOk_ne m "IfcPresentationLayerAssignment"
      "IfcRelAssociatesMaterial" (by decide),
    by_type_sweepPick_colorType m "IfcRelAssociatesMaterial" (by decide)]
  simp

theorem by_type_fileDelta_lay (m : Model) (ks : KnownSets) :
    by_type (fileDelta m ks) "IfcPresentationLayerAssignment"
      = (by_type m "IfcPresentationLayerAssignment").filter (fun e => e.addOk) := by
  simp only [fileDelta, by_type_append]
  rw [by_type_passPick_ne (fun e => e.eid) m "IfcColourRgb"
      "IfcPresentationLayerAssignment" ks.colours (by decide),
    by_type_passPick_ne (fun e => e.eid) m "IfcPresentationStyleAssignment"
      "IfcPresentationLayerAssignment" ks.presentationStyles (by decide),
    by_type_passPick_ne nameKey m "IfcSurfaceStyle"
      "IfcPresentationLayerAssignment" ks.surfaceStyles (by decide),
    by_type_passPick_ne nameKey m "IfcMaterial"
      "IfcPresentationLayerAssignment" ks.materials (by decide),
    by_type_passPick_ne (fun e => e.eid) m "IfcStyledItem"
      "IfcPresentationLayerAssignment" ks.styledItems (by decide),
    by_type_filterOk_ne m "IfcRelAssociatesMaterial"
      "IfcPresentationLayerAssignment" (by decide),
    by_type_filterOk_self m "IfcPresentationLayerAssignment",
    by_type_sweepPick_colorType m "IfcPresentationLayerAssignment" (by decide)]
  simp

/-- **C6**: for the two unconditional-copy categories
(material-association relations, presentation-layer assignments), every
entity of the category whose add succeeds is copied on every processing of a
secondary file with no dedup key check, so repeating the same secondary file
in the input list duplicates those entities in the output model. -/
theorem unconditional_categories_duplicate (fs : String → FileState) (p : String)
    (m : Model) (ks : KnownSets) (out : Model)
    (hp : fs p = FileState.readable m) :
    by_type (processFiles fs [p] ks out).2 "IfcRelAssociatesMaterial"
      = by_type out "IfcRelAssociatesMaterial"
        ++ (by_type m "IfcRelAssociatesMaterial").filter (fun e => e.addOk)
    ∧ by_type (processFiles fs [p] ks out).2 "IfcPresentationLayerAssignment"
      = by_type out "IfcPresentationLayerAssignment"
        ++ (by_type m "IfcPresentationLayerAssignment").filter (fun e => e.addOk)
    ∧ by_type (processFiles fs [p, p] ks out).2 "IfcRelAssociatesMaterial"
      = by_type out "IfcRelAssociatesMaterial"
        ++ (by_type m "IfcRelAssociatesMaterial").filter (fun e => e.addOk)
        ++ (by_type m "IfcRelAssociatesMaterial").filter (fun e => e.addOk)
    ∧ by_type (processFiles fs [p, p] ks out).2 "IfcPresentationLayerAssignment"
      = by_type out "IfcPresentationLayerAssignment"
        ++ (by_type m "IfcPresentationLayerAssignment").filter (fun e => e.addOk)
        ++ (by_type m "IfcPresentationLayerAssignment").filter (fun e => e.addOk) := by
  have e1 : (processFiles fs [p] ks out).2 = out ++ fileDelta m ks := by
    simp [processFiles, hp, processFile_eq]
  have e2 : (processFiles fs [p, p] ks out).2
      = (out ++ fileDelta m ks) ++ fileDelta m (fileKnown m ks) := by
    simp [processFiles, hp, processFile_eq, List.append_assoc]
  refine ⟨?_, ?_, ?_, ?_⟩
  · rw [e1, by_type_append, by_type_fileDelta_rel]
  · rw [e1, by_type_append, by_type_fileDelta_lay]
  · rw [e2, by_type_append, by_type_append, by_type_fileDelta_rel,
      by_type_fileDelta_rel]
  · rw [e2, by_type_append, by_type_append, by_type_fileDelta_lay,
      by_type_fileDelta_lay]

/-- Concrete model for the C6 witness: one material-association relation
and one presentation-layer assignment. -/
def mW6 : Model :=
  [{ typ := "IfcRelAssociatesMaterial", eid := 1, name := none, addOk := true,
     red := 0, green := 0, blue := 0 },
   { typ := "IfcPresentationLayerAssignment", eid := 2, name := some "L",
     addOk := true, red := 0, green := 0, blue := 0 }]

/-- Concrete filesystem for the C6 witness. -/
def fsW6 : String → FileState := fun _ => FileState.readable mW6

theorem unconditional_categories_duplicate_witness :
    by_type (processFiles fsW6 ["p"]
        { materials := [], surfaceStyles := [], styledItems := [],
          colours := [], presentationStyles := [] } []).2 "IfcRelAssociatesMaterial"
      = by_type ([] : Model) "IfcRelAssociatesMaterial"
        ++ (by_type mW6 "IfcRelAssociatesMaterial").filter (fun e => e.addOk)
    ∧ by_type (processFiles fsW6 ["p"]
        { materials := [], surfaceStyles := [], styledItems := [],
          colours := [], presentationStyles := [] } []).2 "IfcPresentationLayerAssignment"
      = by_type ([] : Model) "IfcPresentationLayerAssignment"
        ++ (by_type mW6 "IfcPresentationLayerAssignment").filter (fun e => e.addOk)
    ∧ by_type (processFiles fsW6 ["p", "p"]
        { materials := [], surfaceStyles := [], styledItems := [],
          colours := [], presentationStyles := [] } []).2 "IfcRelAssociatesMaterial"
      = by_type ([] : Model) "IfcRelAssociatesMaterial"
        ++ (by_type mW6 "IfcRelAssociatesMaterial").filter (fun e => e.addOk)
        ++ (by_type mW6 "IfcRelAssociatesMaterial").filter (fun e => e.addOk)
    ∧ by_type (processFiles fsW6 ["p", "p"]
        { materials := [], surfaceStyles := [], styledItems := [],
          colours := [], presentationStyles := [] } []).2 "IfcPresentationLayerAssignment"
      = by_type ([] : Model) "IfcPresentationLayerAssignment"
        ++ (by_type mW6 "IfcPresentationLayerAssignment").filter (fun e => e.addOk)
        ++ (by_type mW6 "IfcPresentationLayerAssignment").filter (fun e => e.addOk) :=
  unconditional_categories_duplicate fsW6 "p" mW6
    { materials := [], surfaceStyles := [], styledItems := [],
      colours := [], presentationStyles := [] } [] (by decide)

/-- **C7**: for every invocation of the merge command (first argument not
`--analyze`) where the base path does not exist or the base file cannot be
opened or parsed, the process terminates with a non-zero exit status and no
output file is produced. -/
theorem missing_base_nonzero_exit (prog outP baseP : String) (rest : List String)
    (fs : String → FileState) (writeOk : Bool)
    (hA : outP ≠ "--analyze")
    (hb : fs baseP = FileState.absent ∨ fs baseP = FileState.unreadable) :
    (mainRun (prog :: outP :: baseP :: rest) fs writeOk).exitCode ≠ 0
    ∧ (mainRun (prog :: outP :: baseP :: rest) fs writeOk).wroteFile = false
    ∧ merge_ifc_files_with_color_priority fs writeOk (baseP :: rest) outP
        = MergeResult.fatalExit 1 := by
  have hm : merge_ifc_files_with_color_priority fs writeOk (baseP :: rest) outP
      = MergeResult.fatalExit 1 := by
    rcases hb with hb | hb <;>
      simp [merge_ifc_files_with_color_priority, hb]
  refine ⟨?_, ?_, hm⟩ <;> simp [mainRun, hA, hm]

theorem missing_base_nonzero_exit_witness :
    (mainRun ["prog", "out.ifc", "gone.ifc"] (fun _ => FileState.absent) true).exitCode ≠ 0
    ∧ (mainRun ["prog", "out.ifc", "gone.ifc"]
        (fun _ => FileState.absent) true).wroteFile = false
    ∧ merge_ifc_files_with_color_priority (fun _ => FileState.absent) true
        ["gone.ifc"] "out.ifc" = MergeResult.fatalExit 1 :=
  missing_base_nonzero_exit "prog" "out.ifc" "gone.ifc" [] (fun _ => FileState.absent)
    true (by decide) (Or.inl rfl)

/-- **C8**: a missing (or unopenable) non-base input file is skipped
entirely and the merge continues with the remaining files: with input files
1, 2, 3 where file 2 does not exist, the merge result is exactly that of
merging files 1 and 3, and the process exit code indicates success. -/
theorem missing_secondary_skipped (prog outP p1 p2 p3 : String)
    (fs : String → FileState) (writeOk : Bool) (m1 m3 : Model)
    (hA : outP ≠ "--analyze")
    (h1 : fs p1 = FileState.readable m1)
    (h2 : fs p2 = FileState.absent ∨ fs p2 = FileState.unreadable)
    (h3 : fs p3 = FileState.readable m3) :
    merge_ifc_files_with_color_priority fs writeOk [p1, p2, p3] outP
      = merge_ifc_files_with_color_priority fs writeOk [p1, p3] outP
    ∧ (mainRun [prog, outP, p1, p2, p3] fs writeOk).exitCode = 0 := by
  have hskip : ∀ ks out, processFiles fs [p2, p3] ks out = processFiles fs [p3] ks out := by
    intro ks out
    rcases h2 with h2 | h2 <;> simp [processFiles, h2]
  constructor
  · simp only [merge_ifc_files_with_color_priority, h1]
    rw [hskip]
  · simp [mainRun, hA, merge_ifc_files_with_color_priority, h1]

/-- Concrete filesystem for the C8 witness: files "a" and "c" open, "b" is
missing. -/
def fsW8 : String → FileState := fun p =>
  if p = "a" then
    FileState.readable
      [{ typ := "IfcMaterial", eid := 1, name := some "Steel", addOk := true,
         red := 0, green := 0, blue := 0 }]
  else if p = "c" then
    FileState.readable
      [{ typ := "IfcMaterial", eid := 2, name := some "Wood", addOk := true,
         red := 0, green := 0, blue := 0 }]
  else FileState.absent

theorem missing_secondary_skipped_witness :
    merge_ifc_files_with_color_priority fsW8 true ["a", "b", "c"] "out.ifc"
      = merge_ifc_files_with_color_priority fsW8 true ["a", "c"] "out.ifc"
    ∧ (mainRun ["prog", "out.ifc", "a", "b", "c"] fsW8 true).exitCode = 0 :=
  missing_secondary_skipped "prog" "out.ifc" "a" "b" "c" fsW8 true
    [{ typ := "IfcMaterial", eid := 1, name := some "Steel", addOk := true,
       red := 0, green := 0, blue := 0 }]
    [{ typ := "IfcMaterial", eid := 2, name := some "Wood", addOk := true,
       red := 0, green := 0, blue := 0 }]
    (by decide) (by decide) (Or.inl (by decide)) (by decide)

/-- **C10** (implicit): when the merge function is called with an empty list
of input files, it prints the no-input error message and returns
immediately: no output model is completed, nothing is written, and the
process is not terminated. -/
theorem empty_input_list_early_return (fs : String → FileState) (writeOk : Bool)
    (outP : String) :
    merge_ifc_files_with_color_priority fs writeOk [] outP
      = MergeResult.noInput "Ошибка: Не указаны входные файлы для объединения."
    ∧ wroteOutput (merge_ifc_files_with_color_priority fs writeOk [] outP) = false
    ∧ exitsProcess (merge_ifc_files_with_color_priority fs writeOk [] outP) = false := by
  refine ⟨rfl, ?_, ?_⟩ <;> rfl

/-- Model for the C9 counterexample: two styled items and one material. -/
def mC9 : Model :=
  [{ typ := "IfcStyledItem", eid := 1, name := none, addOk := true,
     red := 0, green := 0, blue := 0 },
   { typ := "IfcStyledItem", eid := 2, name := none, addOk := true,
     red := 0, green := 0, blue := 0 },
   { typ := "IfcMaterial", eid := 3, name := some "Steel", addOk := true,
     red := 0, green := 0, blue := 0 }]

/-- **C9, counterexample**: the analyzer does NOT print a truncated sample
for styled items.  On a file with two styled items the full report is the
explicit list below: the material gets a per-entity sample line ("  - Steel")
but the two styled items get only the count line "Стилизованные элементы: 2"
and no sample lines, refuting the claim that a sample is printed for each of
materials, surface styles, styled items and colours. -/
theorem styled_item_sample_cex :
    (by_type mC9 "IfcStyledItem").length = 2
    ∧ validate_ifc_colors "f.ifc" (FileState.readable mC9)
      = ["=== Анализ цветовой информации в f.ifc ===",
         "Материалы: 1", "  - Steel",
         "Стили поверхности: 0",
         "Стилизованные элементы: 2",
         "RGB цвета: 0",
         "Связи материалов: 0"] := by decide

/-- **C9, amended**: for every file it is run on, the analyzer prints counts
for materials, surface styles, styled items, RGB colours and material
relations; a truncated sample of the first 5 materials, the first 5 surface
styles and the first 3 colours, with every colour component formatted with
exactly three digits after the decimal point; styled items get a count but
no sample (the report length depends only on the truncated material, style
and colour counts); an open failure is caught and reported as an error line;
and the analyze invocation exits 0 writing no file. -/
theorem analyzer_report_amended (path : String) (m : Model) :
    ("Материалы: " ++ Nat.repr (by_type m "IfcMaterial").length)
      ∈ validate_ifc_colors path (FileState.readable m)
    ∧ ("Стили поверхности: " ++ Nat.repr (by_type m "IfcSurfaceStyle").length)
      ∈ validate_ifc_colors path (FileState.readable m)
    ∧ ("Стилизованные элементы: " ++ Nat.repr (by_type m "IfcStyledItem").length)
      ∈ validate_ifc_colors path (FileState.readable m)
    ∧ ("RGB цвета: " ++ Nat.repr (by_type m "IfcColourRgb").length)
      ∈ validate_ifc_colors path (FileState.readable m)
    ∧ ("Связи материалов: " ++ Nat.repr (by_type m "IfcRelAssociatesMaterial").length)
      ∈ validate_ifc_colors path (FileState.readable m)
    ∧ (∀ e ∈ (by_type m "IfcMaterial").take 5,
        ("  - " ++ displayName e) ∈ validate_ifc_colors path (FileState.readable m))
    ∧ (∀ e ∈ (by_type m "IfcSurfaceStyle").take 5,
        ("  - " ++ displayName e) ∈ validate_ifc_colors path (FileState.readable m))
    ∧ (∀ e ∈ (by_type m "IfcColourRgb").take 3,
        ("  - RGB(" ++ fmt3 e.red ++ ", " ++ fmt3 e.green ++ ", " ++ fmt3 e.blue ++ ")")
          ∈ validate_ifc_colors path (FileState.readable m))
    ∧ (validate_ifc_colors path (FileState.readable m)).length
        = 6 + min 5 (by_type m "IfcMaterial").length
          + min 5 (by_type m "IfcSurfaceStyle").length
          + min 3 (by_type m "IfcColourRgb").length
    ∧ (∀ q : Rat, ∃ a b : String, fmt3 q = a ++ "." ++ b ∧ b.length = 3)
    ∧ validate_ifc_colors path FileState.absent
        = [("=== Анализ цветовой информации в " ++ path ++ " ==="),
           "Ошибка при анализе файла"]
    ∧ validate_ifc_colors path FileState.unreadable
        = [("=== Анализ цветовой информации в " ++ path ++ " ==="),
           "Ошибка при анализе файла"]
    ∧ (∀ (prog : String) (args : List String) (fs : String → FileState) (w : Bool),
        mainRun (prog :: "--analyze" :: path :: args) fs w
          = { exitCode := 0, wroteFile := false }) := by
  refine ⟨?_, ?_, ?_, ?_, ?_, ?_, ?_, ?_, ?_, ?_, rfl, rfl, ?_⟩
  · simp [validate_ifc_colors]
  · simp [validate_ifc_colors]
  · simp [validate_ifc_colors]
  · simp [validate_ifc_colors]
  · simp [validate_ifc_colors]
  · intro e he
    have hm : ("  - " ++ displayName e)
        ∈ ((by_type m "IfcMaterial").take 5).map (fun mat => "  - " ++ displayName mat) :=
      List.mem_map_of_mem _ he
    simp only [validate_ifc_colors, List.mem_cons, List.mem_append]
    tauto
  · intro e he
    have hm : ("  - " ++ displayName e)
        ∈ ((by_type m "IfcSurfaceStyle").take 5).map (fun style => "  - " ++ displayName style) :=
      List.mem_map_of_mem _ he
    simp only [validate_ifc_colors, List.mem_cons, List.mem_append]
    tauto
  · intro e he
    have hm : ("  - RGB(" ++ fmt3 e.red ++ ", " ++ fmt3 e.green ++ ", " ++ fmt3 e.blue ++ ")")
        ∈ ((by_type m "IfcColourRgb").take 3).map (fun colour =>
            "  - RGB(" ++ fmt3 colour.red ++ ", " ++ fmt3 colour.green ++ ", "
              ++ fmt3 colour.blue ++ ")") :=
      List.mem_map_of_mem _ he
    simp only [validate_ifc_colors, List.mem_cons, List.mem_append]
    tauto
  · simp [validate_ifc_colors, List.length_append, List.length_take]
    omega
  · intro q
    refine ⟨(if q.num < 0 then "-" else "")
        ++ Nat.repr ((2 * (q.num.natAbs * 1000) + q.den) / (2 * q.den) / 1000),
      pad3 ((2 * (q.num.natAbs * 1000) + q.den) / (2 * q.den) % 1000), ?_, rfl⟩
    simp [fmt3, String.append_assoc]
  · intro prog args fs w
    simp [mainRun]
